import Mathlib

/-!
Verification of the pico-MFRC522 driver (src/pico_MFRC522.c, src/example.c).

The C driver is shallowly embedded: register-access primitives become pure
functions producing bus-event traces, the chip is a `Device` giving the byte
returned on each read of a given register, and the unbounded polling loop in
`self_test` is modelled with explicit fuel (returning `none` when the fuel is
exhausted, which captures divergence of the C loop).
Machine bytes are `Nat` with explicit `% 256` where the C code truncates.
-/

namespace MFRC522

/-! ## Register map and commands (src/pico_MFRC522.c lines 53-64) -/

def CommandReg : Nat := 0x01 <<< 1

def FIFODataReg : Nat := 0x09 <<< 1

def FIFOLevelReg : Nat := 0x0A <<< 1

def AutoTestReg : Nat := 0x36 <<< 1

def VersionReg : Nat := 0x37 <<< 1

def SoftReset : Nat := 0x0F

def Mem : Nat := 0x01

def EnableSelfTest : Nat := 0x09

def CalcCRC : Nat := 0x03

/-- Golden self-test vector for chip revision 2.0
    (src/pico_MFRC522.c lines 42-51, array `PROGMEM`). -/
def PROGMEM : List Nat :=
  [0x00, 0xEB, 0x66, 0xBA, 0x57, 0xBF, 0x23, 0x95,
   0xD0, 0xE3, 0x0D, 0x3D, 0x27, 0x89, 0x5C, 0xDE,
   0x9D, 0x3B, 0xA7, 0x00, 0x21, 0x5B, 0x89, 0x82,
   0x51, 0x3A, 0xEB, 0x02, 0x0C, 0xA5, 0x00, 0x49,
   0x7C, 0x84, 0x4D, 0xB3, 0xCC, 0xD2, 0x1B, 0x81,
   0x5D, 0x48, 0x76, 0xD5, 0x71, 0x61, 0x21, 0xA9,
   0x86, 0x96, 0x83, 0x38, 0xCF, 0x9D, 0x5B, 0x6D,
   0xDC, 0x15, 0xBA, 0x3E, 0x7D, 0x95, 0x3B, 0x2F]

/-! ## Bus-event level (reg_write / reg_read / cs_select / cs_deselect) -/

/-- One observable event on the SPI bus / chip-select line.
    `nop` is one settling no-op from the `asm volatile` blocks;
    `csPut lvl` is `gpio_put(cs, lvl)` (0 = asserted, active low);
    `tx b` is one byte transmitted by `spi_write_blocking`;
    `rx driven received` is one byte read by `spi_read_blocking`
    while `driven` is output on the MOSI line. -/
inductive Ev where
  | nop : Ev
  | csPut : Nat → Ev
  | tx : Nat → Ev
  | rx : Nat → Nat → Ev
  deriving DecidableEq, Repr

/-- `cs_select` (src/pico_MFRC522.c lines 212-216): nop delay,
    drive the chip-select line low, nop delay. -/
def cs_select : List Ev := [Ev.nop, Ev.csPut 0, Ev.nop]

/-- `cs_deselect` (src/pico_MFRC522.c lines 217-221). -/
def cs_deselect : List Ev := [Ev.nop, Ev.csPut 1, Ev.nop]

/-- The 2-byte frame built by `reg_write` (lines 194-196):
    `msg[0] = 0x00 | reg`, `msg[1] = data`. -/
def reg_write_frame (reg data : Nat) : List Nat :=
  [(0x00 ||| reg) % 256, data % 256]

/-- Bus events of one `reg_write` call (src/pico_MFRC522.c lines 193-201). -/
def reg_write_events (reg data : Nat) : List Ev :=
  cs_select ++ (reg_write_frame reg data).map Ev.tx ++ cs_deselect

/-- The header byte built by `reg_read` (line 204): `msg = 0x80 | reg`. -/
def reg_read_header (reg : Nat) : Nat := (0x80 ||| reg) % 256

/-- Bus events of one `reg_read` call (src/pico_MFRC522.c lines 203-210):
    transmit the header, then read one byte while driving 0
    (`spi_read_blocking(spi, 0, buf, 1)`); `resp` is the byte the device
    places on the bus. -/
def reg_read_events (reg resp : Nat) : List Ev :=
  cs_select ++ [Ev.tx (reg_read_header reg), Ev.rx 0 (resp % 256)] ++ cs_deselect

/-- The byte `reg_read` stores into `*buf`: the byte received on the bus,
    unchanged. -/
def reg_read_result (resp : Nat) : Nat := resp % 256

/-! ## Transaction level -/

/-- One register transaction as issued by the driver. For a read, the
    recorded `Nat` is the (already truncated) byte the device answered. -/
inductive Txn where
  | write : Nat → Nat → Txn
  | read : Nat → Nat → Txn
  deriving DecidableEq, Repr

/-- Refinement of one transaction to its bus events. -/
def busOf : Txn → List Ev
  | Txn.write reg data => reg_write_events reg data
  | Txn.read reg resp => cs_select ++ [Ev.tx (reg_read_header reg), Ev.rx 0 (resp % 256)] ++ cs_deselect

/-- Bus events of a whole transaction sequence. -/
def busTrace : List Txn → List Ev
  | [] => []
  | t :: ts => busOf t ++ busTrace ts

/-- Chip-select discipline checker: scan the event list tracking whether the
    chip-select line is asserted (starting deasserted). Assertions and
    deassertions must strictly alternate (1:1), every byte transfer must
    happen while asserted, and the line must end deasserted. -/
def csCheck (asserted : Bool) : List Ev → Bool
  | [] => !asserted
  | Ev.nop :: rest => csCheck asserted rest
  | Ev.csPut 0 :: rest => !asserted && csCheck true rest
  | Ev.csPut 1 :: rest => asserted && csCheck false rest
  | Ev.csPut (_ + 2) :: _ => false
  | Ev.tx _ :: rest => asserted && csCheck asserted rest
  | Ev.rx _ _ :: rest => asserted && csCheck asserted rest

/-- Recognizer for a chip-select assertion event. -/
def isSel : Ev → Bool
  | Ev.csPut 0 => true
  | _ => false

/-- Recognizer for a chip-select deassertion event. -/
def isDesel : Ev → Bool
  | Ev.csPut 1 => true
  | _ => false

/-- Recognizer for a byte-transfer event (transmit or receive). -/
def isByte : Ev → Bool
  | Ev.tx _ => true
  | Ev.rx _ _ => true
  | _ => false

/-- Count of chip-select assertions in an event list. -/
def countSel (es : List Ev) : Nat := es.countP isSel

/-- Count of chip-select deassertions in an event list. -/
def countDesel (es : List Ev) : Nat := es.countP isDesel

/-! ## Device model -/

/-- A simulated MFRC522 chip: `version` is the byte answered on every
    version-register read, `level i` the byte answered on the i-th
    FIFO-level read, `data i` the byte answered on the i-th FIFO-data
    read. Reads of other registers answer 0. -/
structure Device where
  version : Nat
  level : Nat → Nat
  data : Nat → Nat

/-- Per-register read counters of a simulated device. -/
structure DevState where
  nLevel : Nat
  nData : Nat
  deriving DecidableEq, Repr

/-- One device response: the byte placed on the bus for a read of `reg`
    (already truncated to a byte), and the successor state. -/
def devRead (d : Device) (s : DevState) (reg : Nat) : Nat × DevState :=
  if reg = FIFOLevelReg then (d.level s.nLevel % 256, { s with nLevel := s.nLevel + 1 })
  else if reg = FIFODataReg then (d.data s.nData % 256, { s with nData := s.nData + 1 })
  else if reg = VersionReg then (d.version % 256, s)
  else (0, s)

/-! ## self_test (src/pico_MFRC522.c lines 123-191) -/

/-- The value the C statement `return -1;` delivers from a function with
    return type `uint8_t`: reduction of -1 modulo 2^8. -/
def fail_ret : Nat := Int.toNat ((-1 : Int) % 256)

/-- Loop of lines 183-187: walk the result and golden arrays in step,
    returning `fail_ret` at the first position where they differ, and 0
    (line 189) when the loop completes. -/
def check_loop : List Nat → List Nat → Nat
  | r :: rs, g :: gs => if r ≠ g then fail_ret else check_loop rs gs
  | _, _ => 0

/-- Loop exit condition of the polling loop (line 156): `buf >= 64` on the
    raw byte read from the FIFO-level register. -/
def pollDone (b : Nat) : Bool := 64 ≤ b

/-- The polling loop of lines 151-159, with explicit fuel: repeatedly read
    the FIFO-level register until a read answers a byte `>= 64`. Returns the
    read transactions issued and the final device state, or `none` when
    `fuel` reads all answered `< 64` (the C loop has no bound and would
    still be running). -/
def pollLevel (d : Device) (s : DevState) : Nat → Option (List Txn × DevState)
  | 0 => none
  | fuel + 1 =>
    let r := devRead d s FIFOLevelReg
    if pollDone r.1 then
      some ([Txn.read FIFOLevelReg r.1], r.2)
    else
      match pollLevel d r.2 fuel with
      | none => none
      | some (ts, s2) => some (Txn.read FIFOLevelReg r.1 :: ts, s2)

/-- The drain loop of lines 165-170: read `n` bytes from the FIFO data
    register, one read transaction per byte, preserving order. Returns the
    transactions, the `result` array contents, and the final device state. -/
def drain (d : Device) (s : DevState) : Nat → List Txn × List Nat × DevState
  | 0 => ([], [], s)
  | n + 1 =>
    let r := devRead d s FIFODataReg
    let rest := drain d r.2 n
    (Txn.read FIFODataReg r.1 :: rest.1, r.1 :: rest.2.1, rest.2.2)

/-- The fixed write prefix of `self_test` (lines 125-148): soft reset,
    FIFO flush, 25 dummy bytes, Mem command, self-test enable, seed byte,
    CalcCRC command. -/
def self_test_prelude : List Txn :=
  [Txn.write CommandReg SoftReset,
   Txn.write FIFOLevelReg 0x80] ++
  List.replicate 25 (Txn.write FIFODataReg 0x00) ++
  [Txn.write CommandReg Mem,
   Txn.write AutoTestReg EnableSelfTest,
   Txn.write FIFODataReg 0x00,
   Txn.write CommandReg CalcCRC]

/-- `self_test` (src/pico_MFRC522.c lines 123-191) against simulated device
    `d`, with `fuel` bounding the number of polling iterations observed.
    Returns the issued transaction sequence and the `uint8_t` return value,
    or `none` if the polling loop is still running after `fuel` reads. -/
def self_test (d : Device) (fuel : Nat) : Option (List Txn × Nat) :=
  match pollLevel d ⟨0, 0⟩ fuel with
  | none => none
  | some (polls, s1) =>
    let dr := drain d s1 64
    let ret := check_loop dr.2.1 PROGMEM
    some (self_test_prelude ++ polls ++ dr.1 ++ [Txn.write AutoTestReg 0x00], ret)

/-! ## main (src/pico_MFRC522.c lines 74-121, transaction-relevant part) -/

/-- The register traffic of `main` before and including `self_test`
    (lines 107-116): a soft reset write, one version-register read whose
    byte goes only to `printf`, then `self_test`. Returns the version byte
    read and the self-test outcome. -/
def main_run (d : Device) (fuel : Nat) : Nat × Option (List Txn × Nat) :=
  let v := devRead d ⟨0, 0⟩ VersionReg
  (v.1, self_test d fuel)

/-! ## example.c UID authentication -/

/-- Reference UID `tag1` (src/example.c line 7). -/
def tag1 : List Nat := [0x93, 0xE3, 0x9A, 0x92]

/-- `memcmp(a, b, n) == 0` over byte lists: true iff the first `n`
    elements of each agree pairwise (false if either runs out early). -/
def memcmp_eq : List Nat → List Nat → Nat → Bool
  | _, _, 0 => true
  | a :: as, b :: bs, n + 1 => a = b && memcmp_eq as bs n
  | [], _ :: _, _ + 1 => false
  | _, [], _ + 1 => false

/-- The authentication check of src/example.c line 40:
    `memcmp(mfrc->uid.uidByte, tag1, 4) == 0`. -/
def auth (uid : List Nat) : Bool := memcmp_eq uid tag1 4

/-! ## Concrete simulated devices used to instantiate the theorems -/

/-- A device whose FIFO-level reads always answer 0x80 (flush bit set,
    7-bit level field = 0) and whose FIFO reads answer 0. -/
def dFlush : Device := ⟨0x92, fun _ => 0x80, fun _ => 0⟩

/-- A device whose FIFO-level reads never reach 64. -/
def dStuck : Device := ⟨0x92, fun _ => 0x3F, fun _ => 0⟩

/-- A device that reports level 64 at once and answers the drain with the
    revision-2.0 golden vector. -/
def goldenDevice : Device := ⟨0x92, fun _ => 64, fun i => PROGMEM.getD i 0⟩

/-- Same level/data behaviour as `goldenDevice` but a different version
    byte. -/
def goldenDeviceV1 : Device := ⟨0x91, fun _ => 64, fun i => PROGMEM.getD i 0⟩

/-! ## Helper lemmas -/

lemma fail_ret_eq : fail_ret = 255 := rfl

lemma devRead_level (d : Device) (s : DevState) :
    devRead d s FIFOLevelReg =
      (d.level s.nLevel % 256, { s with nLevel := s.nLevel + 1 }) := by
  simp [devRead]

lemma devRead_data (d : Device) (s : DevState) :
    devRead d s FIFODataReg =
      (d.data s.nData % 256, { s with nData := s.nData + 1 }) := by
  simp [devRead, FIFODataReg, FIFOLevelReg]

lemma devRead_version (d : Device) (s : DevState) :
    devRead d s VersionReg = (d.version % 256, s) := by
  simp [devRead, FIFODataReg, FIFOLevelReg, VersionReg]

lemma pollLevel_succ (d : Device) (s : DevState) (fuel : Nat) :
    pollLevel d s (fuel + 1) =
      if pollDone (d.level s.nLevel % 256) then
        some ([Txn.read FIFOLevelReg (d.level s.nLevel % 256)],
              { s with nLevel := s.nLevel + 1 })
      else
        match pollLevel d { s with nLevel := s.nLevel + 1 } fuel with
        | none => none
        | some (ts, s2) =>
          some (Txn.read FIFOLevelReg (d.level s.nLevel % 256) :: ts, s2) := by
  conv_lhs => rw [pollLevel]
  rw [devRead_level]

lemma drain_succ (d : Device) (s : DevState) (n : Nat) :
    drain d s (n + 1) =
      (Txn.read FIFODataReg (d.data s.nData % 256) ::
         (drain d { s with nData := s.nData + 1 } n).1,
       d.data s.nData % 256 :: (drain d { s with nData := s.nData + 1 } n).2.1,
       (drain d { s with nData := s.nData + 1 } n).2.2) := by
  conv_lhs => rw [drain]
  rw [devRead_data]

lemma check_loop_cases (rs gs : List Nat) :
    check_loop rs gs = 0 ∨ check_loop rs gs = fail_ret := by
  induction rs generalizing gs with
  | nil => left; rfl
  | cons r rs ih =>
    cases gs with
    | nil => left; rfl
    | cons g gs =>
      by_cases h : r = g
      · simpa [check_loop, h] using ih gs
      · simp [check_loop, h]

lemma auth_eq (a b c d : Nat) :
    auth [a, b, c, d] =
      (decide (a = 0x93) && (decide (b = 0xE3) &&
        (decide (c = 0x9A) && (decide (d = 0x92) && true)))) := rfl

/-! ## Claim theorems -/

/-- Claim C3: for every logical register address r in [0,63] and every data
byte d, a register write transmits exactly the 2-byte frame
[(r<<1)&0xFE, d]: the first byte is the address left-shifted by one with
bit 0 clear and the mode bit (MSB) 0, followed by the data byte, in one
chip-select-bracketed exchange. -/
theorem reg_write_frame_correct (r d : Nat) (hr : r < 64) (hd : d < 256) :
    reg_write_frame (r <<< 1) d = [(r <<< 1) &&& 0xFE, d] ∧
    ((r <<< 1) &&& 0xFE) % 2 = 0 ∧
    ((r <<< 1) &&& 0xFE) &&& 0x80 = 0 ∧
    reg_write_events (r <<< 1) d =
      cs_select ++ [Ev.tx ((r <<< 1) &&& 0xFE), Ev.tx d] ++ cs_deselect := by
  have key : ∀ x < 64, ((x <<< 1) % 256 = (x <<< 1) &&& 0xFE) ∧
      ((x <<< 1) &&& 0xFE) % 2 = 0 ∧ ((x <<< 1) &&& 0xFE) &&& 0x80 = 0 := by decide
  obtain ⟨k1, k2, k3⟩ := key r hr
  have hd2 : d % 256 = d := Nat.mod_eq_of_lt hd
  refine ⟨?_, k2, k3, ?_⟩ <;>
    simp [reg_write_frame, reg_write_events, k1, hd2]

theorem reg_write_frame_correct_witness :
    reg_write_frame (0x36 <<< 1) 0x09 = [(0x36 <<< 1) &&& 0xFE, 0x09] ∧
    ((0x36 <<< 1) &&& 0xFE) % 2 = 0 ∧
    ((0x36 <<< 1) &&& 0xFE) &&& 0x80 = 0 ∧
    reg_write_events (0x36 <<< 1) 0x09 =
      cs_select ++ [Ev.tx ((0x36 <<< 1) &&& 0xFE), Ev.tx 0x09] ++ cs_deselect :=
  reg_write_frame_correct 0x36 0x09 (by decide) (by decide)

/-- Claim C4: for every logical register address r in [0,63], a register
read transmits exactly one header byte 0x80 | ((r<<1)&0x7E) with the mode
bit (MSB) set, then reads exactly one byte while driving 0 on the output
line, and delivers the received byte to the caller unchanged. -/
theorem reg_read_frame_correct (r resp : Nat) (hr : r < 64) (hresp : resp < 256) :
    reg_read_header (r <<< 1) = 0x80 ||| ((r <<< 1) &&& 0x7E) ∧
    (reg_read_header (r <<< 1)) &&& 0x80 = 0x80 ∧
    reg_read_events (r <<< 1) resp =
      cs_select ++ [Ev.tx (0x80 ||| ((r <<< 1) &&& 0x7E)), Ev.rx 0 resp] ++ cs_deselect ∧
    reg_read_result resp = resp := by
  have key : ∀ x < 64, (0x80 ||| (x <<< 1)) % 256 = 0x80 ||| ((x <<< 1) &&& 0x7E) ∧
      (0x80 ||| ((x <<< 1) &&& 0x7E)) &&& 0x80 = 0x80 := by decide
  obtain ⟨k1, k2⟩ := key r hr
  have hresp2 : resp % 256 = resp := Nat.mod_eq_of_lt hresp
  refine ⟨?_, ?_, ?_, hresp2⟩
  · simpa [reg_read_header] using k1
  · simpa [reg_read_header, k1] using k2
  · simp [reg_read_events, reg_read_header, k1, hresp2]

theorem reg_read_frame_correct_witness :
    reg_read_header (0x37 <<< 1) = 0x80 ||| ((0x37 <<< 1) &&& 0x7E) ∧
    (reg_read_header (0x37 <<< 1)) &&& 0x80 = 0x80 ∧
    reg_read_events (0x37 <<< 1) 0x92 =
      cs_select ++ [Ev.tx (0x80 ||| ((0x37 <<< 1) &&& 0x7E)), Ev.rx 0 0x92] ++ cs_deselect ∧
    reg_read_result 0x92 = 0x92 :=
  reg_read_frame_correct 0x37 0x92 (by decide) (by decide)

/-- Claim C8: for every scanned 4-byte UID, authentication reports success
if and only if the UID equals the configured reference UID tag1 at all four
positions; any single differing byte therefore reports failure. -/
theorem auth_iff : ∀ (uid : List Nat), uid.length = 4 →
    (auth uid = true ↔ uid = tag1)
  | [], h => by simp at h
  | [a], h => by simp at h
  | [a, b], h => by simp at h
  | [a, b, c], h => by simp at h
  | [a, b, c, d], _ => by
      rw [auth_eq]
      simp [tag1]
  | a :: b :: c :: d :: e :: tl, h => by simp at h

theorem auth_iff_witness :
    (auth [0x93, 0xE3, 0x9A, 0x92] = true ↔ [0x93, 0xE3, 0x9A, 0x92] = tag1) ∧
    (auth [0x93, 0xE3, 0x9A, 0x93] = true ↔ [0x93, 0xE3, 0x9A, 0x93] = tag1) :=
  ⟨auth_iff [0x93, 0xE3, 0x9A, 0x92] (by decide),
   auth_iff [0x93, 0xE3, 0x9A, 0x93] (by decide)⟩

/-- Claim C9: the completion condition of the polling loop is an unsigned
comparison of the raw FIFO-level byte with 64, with no masking of the high
flush bit: any read byte that is >= 64 as an unsigned 8-bit value ends the
loop on that very read, including 0x80, whose low 7-bit level field is 0. -/
theorem pollDone_raw (d : Device) (s : DevState) (fuel : Nat)
    (h : 64 ≤ d.level s.nLevel % 256) :
    pollLevel d s (fuel + 1) =
      some ([Txn.read FIFOLevelReg (d.level s.nLevel % 256)],
            { s with nLevel := s.nLevel + 1 }) ∧
    pollDone 0x80 = true ∧ 0x80 &&& 0x7F < 64 := by
  have hd : devRead d s FIFOLevelReg =
      (d.level s.nLevel % 256, { s with nLevel := s.nLevel + 1 }) := by
    simp [devRead]
  refine ⟨?_, by decide, by decide⟩
  simp [pollLevel, hd, pollDone, h]

theorem pollDone_raw_witness :
    pollLevel dFlush ⟨0, 0⟩ 1 =
      some ([Txn.read FIFOLevelReg (dFlush.level 0 % 256)], ⟨1, 0⟩) ∧
    pollDone 0x80 = true ∧ 0x80 &&& 0x7F < 64 :=
  pollDone_raw dFlush ⟨0, 0⟩ 0 (by decide)

/-- Claim C10: the return values of self_test are the unsigned bytes 0 on
pass and 255 on mismatch: the literal -1 returned on a mismatch reaches the
caller of the uint8_t-returning function as 255 (reduction modulo 2^8),
never as a negative value. -/
theorem self_test_ret_byte (d : Device) (fuel : Nat) (tr : List Txn) (r : Nat)
    (h : self_test d fuel = some (tr, r)) :
    fail_ret = 255 ∧ (r = 0 ∨ r = 255) := by
  refine ⟨rfl, ?_⟩
  rcases hp : pollLevel d ⟨0, 0⟩ fuel with _ | ⟨polls, s1⟩
  · simp [self_test, hp] at h
  · simp [self_test, hp] at h
    rcases check_loop_cases (drain d s1 64).2.1 PROGMEM with h0 | hf
    · exact Or.inl (h.2 ▸ h0)
    · exact Or.inr (h.2 ▸ (fail_ret_eq ▸ hf))

theorem self_test_ret_byte_witness :
    fail_ret = 255 ∧
    (((self_test dFlush 1).getD ([], 1)).2 = 0 ∨
     ((self_test dFlush 1).getD ([], 1)).2 = 255) :=
  self_test_ret_byte dFlush 1 _ _ rfl

lemma pollLevel_none (d : Device) (hlow : ∀ i, d.level i % 256 < 64) :
    ∀ (fuel : Nat) (s : DevState), pollLevel d s fuel = none := by
  intro fuel
  induction fuel with
  | zero => intro s; rfl
  | succ n ih =>
    intro s
    have hd : devRead d s FIFOLevelReg =
        (d.level s.nLevel % 256, { s with nLevel := s.nLevel + 1 }) := by
      simp [devRead]
    have hnd : pollDone (d.level s.nLevel % 256) = false := by
      have := hlow s.nLevel
      simp [pollDone]
      omega
    simp [pollLevel, hd, hnd, ih]

lemma pollLevel_isSome (d : Device) :
    ∀ (n : Nat) (s : DevState), 64 ≤ d.level (s.nLevel + n) % 256 →
      (pollLevel d s (n + 1)).isSome = true := by
  intro n
  induction n with
  | zero =>
    intro s h
    have hd : devRead d s FIFOLevelReg =
        (d.level s.nLevel % 256, { s with nLevel := s.nLevel + 1 }) := by
      simp [devRead]
    have hdone : pollDone (d.level s.nLevel % 256) = true := by
      simpa [pollDone] using h
    simp [pollLevel, hd, hdone]
  | succ n ih =>
    intro s h
    by_cases hdone : pollDone (d.level s.nLevel % 256) = true
    · rw [pollLevel_succ, if_pos hdone]
      rfl
    · have h2 : 64 ≤ d.level ((s.nLevel + 1) + n) % 256 := by
        have hx : (s.nLevel + 1) + n = s.nLevel + (n + 1) := by omega
        rw [hx]
        exact h
      have hrecSome := ih { s with nLevel := s.nLevel + 1 } h2
      rcases hrec : pollLevel d { s with nLevel := s.nLevel + 1 } (n + 1) with _ | out
      · rw [hrec] at hrecSome
        simp at hrecSome
      · rw [pollLevel_succ, if_neg hdone, hrec]
        rfl

/-- Claim C5: the polling loop of self_test terminates if and only if some
FIFO-level read eventually answers a byte >= 64: a device whose level reads
stay below 64 makes self_test diverge (none for every fuel), while a level
byte >= 64 at read i makes it return within i+1 polls. -/
theorem self_test_termination (d : Device) :
    ((∀ i, d.level i % 256 < 64) → ∀ fuel, self_test d fuel = none) ∧
    (∀ i, 64 ≤ d.level i % 256 → (self_test d (i + 1)).isSome = true) := by
  constructor
  · intro hlow fuel
    simp [self_test, pollLevel_none d hlow fuel]
  · intro i h
    have h0 : 64 ≤ d.level ((⟨0, 0⟩ : DevState).nLevel + i) % 256 := by simpa using h
    have := pollLevel_isSome d i ⟨0, 0⟩ h0
    rcases hp : pollLevel d ⟨0, 0⟩ (i + 1) with _ | ⟨polls, s1⟩
    · rw [hp] at this
      simp at this
    · simp [self_test, hp]

theorem self_test_termination_witness :
    self_test dStuck 5 = none ∧ (self_test goldenDevice 1).isSome = true :=
  ⟨(self_test_termination dStuck).1 (by intro i; simp [dStuck]) 5,
   (self_test_termination goldenDevice).2 0 (by simp [goldenDevice])⟩

lemma csCheck_busOf (t : Txn) (rest : List Ev) :
    csCheck false (busOf t ++ rest) = csCheck false rest := by
  cases t <;>
    simp [busOf, reg_write_events, reg_write_frame, cs_select, cs_deselect, csCheck]

lemma csCheck_busTrace (ts : List Txn) : csCheck false (busTrace ts) = true := by
  induction ts with
  | nil => rfl
  | cons t ts ih => simp [busTrace, csCheck_busOf, ih]

lemma busOf_shape (t : Txn) :
    ∃ body, busOf t = cs_select ++ body ++ cs_deselect ∧
      (∀ e ∈ body, isByte e = true) ∧
      countSel (busOf t) = 1 ∧ countDesel (busOf t) = 1 := by
  cases t with
  | write reg data =>
    refine ⟨[Ev.tx ((0x00 ||| reg) % 256), Ev.tx (data % 256)], rfl, ?_, ?_, ?_⟩
    · simp [isByte]
    · simp [busOf, reg_write_events, reg_write_frame, cs_select, cs_deselect,
        countSel, isSel]
    · simp [busOf, reg_write_events, reg_write_frame, cs_select, cs_deselect,
        countDesel, isDesel]
  | read reg resp =>
    refine ⟨[Ev.tx (reg_read_header reg), Ev.rx 0 (resp % 256)], rfl, ?_, ?_, ?_⟩
    · simp [isByte]
    · simp [busOf, cs_select, cs_deselect, countSel, isSel]
    · simp [busOf, cs_select, cs_deselect, countDesel, isDesel]

/-- Claim C6: every register write and register read is strictly bracketed
by exactly one chip-select assertion before it and one deassertion after it
(1:1), no bus byte is ever transferred while chip-select is deasserted, and
the settling no-ops around each chip-select toggle are part of every
transaction unconditionally. -/
theorem cs_discipline (ts : List Txn) :
    csCheck false (busTrace ts) = true ∧
    cs_select = [Ev.nop, Ev.csPut 0, Ev.nop] ∧
    cs_deselect = [Ev.nop, Ev.csPut 1, Ev.nop] ∧
    ∀ t ∈ ts, ∃ body,
      busOf t = cs_select ++ body ++ cs_deselect ∧
      (∀ e ∈ body, isByte e = true) ∧
      countSel (busOf t) = 1 ∧ countDesel (busOf t) = 1 :=
  ⟨csCheck_busTrace ts, rfl, rfl, fun t _ => busOf_shape t⟩

theorem cs_discipline_witness :
    csCheck false
      (busTrace [Txn.write CommandReg SoftReset, Txn.read VersionReg 0x92]) = true ∧
    ∃ body, busOf (Txn.read VersionReg 0x92) = cs_select ++ body ++ cs_deselect ∧
      (∀ e ∈ body, isByte e = true) ∧
      countSel (busOf (Txn.read VersionReg 0x92)) = 1 ∧
      countDesel (busOf (Txn.read VersionReg 0x92)) = 1 :=
  ⟨(cs_discipline [Txn.write CommandReg SoftReset, Txn.read VersionReg 0x92]).1,
   (cs_discipline [Txn.write CommandReg SoftReset, Txn.read VersionReg 0x92]).2.2.2
     (Txn.read VersionReg 0x92) (by simp)⟩

lemma pollLevel_congr (d1 d2 : Device) (hl : d1.level = d2.level) :
    ∀ (fuel : Nat) (s : DevState), pollLevel d1 s fuel = pollLevel d2 s fuel := by
  intro fuel
  induction fuel with
  | zero => intro s; rfl
  | succ n ih =>
    intro s
    have hd : devRead d1 s FIFOLevelReg = devRead d2 s FIFOLevelReg := by
      simp [devRead, hl]
    simp [pollLevel, hd, ih]

lemma drain_congr (d1 d2 : Device) (hd : d1.data = d2.data) :
    ∀ (n : Nat) (s : DevState), drain d1 s n = drain d2 s n := by
  intro n
  induction n with
  | zero => intro s; rfl
  | succ n ih =>
    intro s
    rw [drain_succ, drain_succ, hd, ih]

/-- Claim C7: the outcome of self_test is independent of the version
register: the version byte is read once, before self_test, for logging
only, and two devices that agree on their FIFO-level and FIFO-data
behaviour but differ in version make self_test (and the test-result
component of main) behave identically — no version check drives vector
selection. -/
theorem self_test_version_independent (d1 d2 : Device) (fuel : Nat)
    (hl : d1.level = d2.level) (hd : d1.data = d2.data) :
    self_test d1 fuel = self_test d2 fuel ∧
    (main_run d1 fuel).1 = d1.version % 256 ∧
    (main_run d1 fuel).2 = (main_run d2 fuel).2 := by
  have hp := pollLevel_congr d1 d2 hl fuel ⟨0, 0⟩
  have hst : self_test d1 fuel = self_test d2 fuel := by
    rcases h2 : pollLevel d2 ⟨0, 0⟩ fuel with _ | ⟨polls, s1⟩
    · simp [self_test, hp.trans h2, h2]
    · simp [self_test, hp.trans h2, h2, drain_congr d1 d2 hd 64 s1]
  refine ⟨hst, ?_, ?_⟩
  · simp [main_run, devRead, FIFOLevelReg, FIFODataReg, VersionReg]
  · simp [main_run, hst]

theorem self_test_version_independent_witness :
    self_test goldenDevice 1 = self_test goldenDeviceV1 1 ∧
    (main_run goldenDevice 1).1 = goldenDevice.version % 256 ∧
    (main_run goldenDevice 1).2 = (main_run goldenDeviceV1 1).2 :=
  self_test_version_independent goldenDevice goldenDeviceV1 1 rfl rfl

lemma self_test_eq_some (d : Device) (fuel : Nat) (polls : List Txn) (s1 : DevState)
    (hp : pollLevel d ⟨0, 0⟩ fuel = some (polls, s1)) :
    self_test d fuel =
      some (self_test_prelude ++ polls ++ (drain d s1 64).1 ++
              [Txn.write AutoTestReg 0x00],
            check_loop (drain d s1 64).2.1 PROGMEM) := by
  unfold self_test
  rw [hp]

lemma self_test_eq_none_of_poll_none (d : Device) (fuel : Nat)
    (hp : pollLevel d ⟨0, 0⟩ fuel = none) : self_test d fuel = none := by
  unfold self_test
  rw [hp]

lemma pollLevel_shape (d : Device) :
    ∀ (fuel : Nat) (s : DevState) (ts : List Txn) (s2 : DevState),
      pollLevel d s fuel = some (ts, s2) →
      s2.nData = s.nData ∧
      ∃ bs b, ts = (bs ++ [b]).map (Txn.read FIFOLevelReg) ∧
        (∀ x ∈ bs, x < 64) ∧ 64 ≤ b := by
  intro fuel
  induction fuel with
  | zero => intro s ts s2 h; exact absurd h (by simp [pollLevel])
  | succ n ih =>
    intro s ts s2 h
    rw [pollLevel_succ] at h
    by_cases hdone : pollDone (d.level s.nLevel % 256) = true
    · rw [if_pos hdone] at h
      simp only [Option.some.injEq, Prod.mk.injEq] at h
      obtain ⟨hts, hs2⟩ := h
      subst hts
      subst hs2
      refine ⟨rfl, [], d.level s.nLevel % 256, by simp, by simp, ?_⟩
      simpa [pollDone] using hdone
    · rw [if_neg hdone] at h
      rcases hrec : pollLevel d { s with nLevel := s.nLevel + 1 } n with _ | ⟨ts1, s3⟩
      · rw [hrec] at h
        simp at h
      · rw [hrec] at h
        simp only [Option.some.injEq, Prod.mk.injEq] at h
        obtain ⟨hts, hs2⟩ := h
        subst hts
        subst hs2
        obtain ⟨hnd, bs, b, hts1, hlt, hb⟩ := ih _ ts1 s3 hrec
        refine ⟨hnd, (d.level s.nLevel % 256) :: bs, b, by simp [hts1], ?_, hb⟩
        intro x hx
        rcases List.mem_cons.mp hx with hx | hx
        · subst hx
          have hlow : ¬ 64 ≤ d.level s.nLevel % 256 := by
            simpa [pollDone] using hdone
          omega
        · exact hlt x hx

lemma drain_shape (d : Device) :
    ∀ (n : Nat) (s : DevState),
      (drain d s n).1 = ((drain d s n).2.1).map (Txn.read FIFODataReg) ∧
      (drain d s n).2.1 = (List.range n).map (fun i => d.data (s.nData + i) % 256) := by
  intro n
  induction n with
  | zero => intro s; exact ⟨rfl, rfl⟩
  | succ n ih =>
    intro s
    obtain ⟨h1, h2⟩ := ih { s with nData := s.nData + 1 }
    rw [drain_succ]
    refine ⟨by simp [h1], ?_⟩
    rw [h2, List.range_succ_eq_map]
    simp only [List.map_cons, List.map_map, Nat.add_zero]
    congr 1
    apply List.map_congr_left
    intro x _
    simp only [Function.comp_apply]
    congr 2
    omega

lemma check_loop_eq_zero_iff : ∀ (rs gs : List Nat), rs.length = gs.length →
    (check_loop rs gs = 0 ↔ rs = gs)
  | [], [], _ => by simp [check_loop]
  | [], g :: gs, h => by simp at h
  | r :: rs, [], h => by simp at h
  | r :: rs, g :: gs, h => by
    by_cases hrg : r = g
    · subst hrg
      have hrec := check_loop_eq_zero_iff rs gs (by simpa using h)
      simp [check_loop, hrec]
    · simp [check_loop, hrg, fail_ret_eq]

/-- Claim C1: every returning execution of self_test issues exactly this
transaction sequence in this order, unconditionally: the soft-reset write,
the FIFO-flush write (0x80 to the FIFO-level register), 25 writes of 0x00
to the FIFO data register, the Mem command write, the auto-test-enable
write (0x09), one write of 0x00 to the FIFO data register, the CalcCRC
command write, one or more FIFO-level reads of which only the last answers
a byte >= 64, exactly 64 FIFO data reads, and finally the
auto-test-disable write (0x00 to the auto-test register), which precedes
the comparison and thus happens whatever the eventual outcome r is. -/
theorem self_test_sequence (d : Device) (fuel : Nat) (tr : List Txn) (r : Nat)
    (h : self_test d fuel = some (tr, r)) :
    ∃ (levels : List Nat) (lastLevel : Nat) (res : List Nat),
      tr = [Txn.write CommandReg SoftReset, Txn.write FIFOLevelReg 0x80]
          ++ List.replicate 25 (Txn.write FIFODataReg 0x00)
          ++ [Txn.write CommandReg Mem, Txn.write AutoTestReg EnableSelfTest,
              Txn.write FIFODataReg 0x00, Txn.write CommandReg CalcCRC]
          ++ (levels ++ [lastLevel]).map (Txn.read FIFOLevelReg)
          ++ res.map (Txn.read FIFODataReg)
          ++ [Txn.write AutoTestReg 0x00] ∧
      (∀ x ∈ levels, x < 64) ∧ 64 ≤ lastLevel ∧ res.length = 64 := by
  rcases hp : pollLevel d ⟨0, 0⟩ fuel with _ | ⟨polls, s1⟩
  · rw [self_test_eq_none_of_poll_none d fuel hp] at h
    exact absurd h (by simp)
  · have heq := (self_test_eq_some d fuel polls s1 hp).symm.trans h
    simp only [Option.some.injEq, Prod.mk.injEq] at heq
    obtain ⟨htr, hr⟩ := heq
    obtain ⟨hnd, bs, b, hpolls, hlt, hb⟩ := pollLevel_shape d fuel ⟨0, 0⟩ polls s1 hp
    obtain ⟨hmap, hvals⟩ := drain_shape d 64 s1
    refine ⟨bs, b, (drain d s1 64).2.1, ?_, hlt, hb, ?_⟩
    · rw [← htr, hpolls, hmap]
      simp [self_test_prelude, List.append_assoc]
    · rw [hvals]
      simp

theorem self_test_sequence_witness :
    ∃ (levels : List Nat) (lastLevel : Nat) (res : List Nat),
      ((self_test goldenDevice 1).getD ([], 1)).1 =
        [Txn.write CommandReg SoftReset, Txn.write FIFOLevelReg 0x80]
          ++ List.replicate 25 (Txn.write FIFODataReg 0x00)
          ++ [Txn.write CommandReg Mem, Txn.write AutoTestReg EnableSelfTest,
              Txn.write FIFODataReg 0x00, Txn.write CommandReg CalcCRC]
          ++ (levels ++ [lastLevel]).map (Txn.read FIFOLevelReg)
          ++ res.map (Txn.read FIFODataReg)
          ++ [Txn.write AutoTestReg 0x00] ∧
      (∀ x ∈ levels, x < 64) ∧ 64 ≤ lastLevel ∧ res.length = 64 :=
  self_test_sequence goldenDevice 1 _ _ rfl

/-- Claim C2: for every drained 64-byte result sequence, self_test returns
the success value 0 if and only if the result equals the stored
revision-2.0 golden vector PROGMEM at all 64 positions; any sequence
differing from it (in particular one with a single flipped byte) yields
the failure value. -/
theorem self_test_golden_iff (d : Device) (fuel : Nat) (tr : List Txn) (r : Nat)
    (h : self_test d fuel = some (tr, r)) :
    (r = 0 ↔ (List.range 64).map (fun i => d.data i % 256) = PROGMEM) ∧
    ((List.range 64).map (fun i => d.data i % 256) ≠ PROGMEM → r = fail_ret) := by
  rcases hp : pollLevel d ⟨0, 0⟩ fuel with _ | ⟨polls, s1⟩
  · rw [self_test_eq_none_of_poll_none d fuel hp] at h
    exact absurd h (by simp)
  · have heq := (self_test_eq_some d fuel polls s1 hp).symm.trans h
    simp only [Option.some.injEq, Prod.mk.injEq] at heq
    obtain ⟨htr, hr⟩ := heq
    obtain ⟨hnd, _⟩ := pollLevel_shape d fuel ⟨0, 0⟩ polls s1 hp
    obtain ⟨_, hvals⟩ := drain_shape d 64 s1
    have hnd0 : s1.nData = 0 := hnd
    have hdrained : (drain d s1 64).2.1 =
        (List.range 64).map (fun i => d.data i % 256) := by
      rw [hvals, hnd0]
      simp
    have hlen : (drain d s1 64).2.1.length = PROGMEM.length := by
      have hp64 : PROGMEM.length = 64 := rfl
      rw [hdrained, hp64]
      simp
    have hiff := check_loop_eq_zero_iff (drain d s1 64).2.1 PROGMEM hlen
    constructor
    · rw [← hr, hiff, hdrained]
    · intro hne
      have hne2 : (drain d s1 64).2.1 ≠ PROGMEM := by
        rw [hdrained]
        exact hne
      rcases check_loop_cases (drain d s1 64).2.1 PROGMEM with h0 | hf
      · exact absurd (hiff.mp h0) hne2
      · rw [← hr]
        exact hf

theorem self_test_golden_iff_witness :
    (((self_test goldenDevice 1).getD ([], 1)).2 = 0 ↔
      (List.range 64).map (fun i => goldenDevice.data i % 256) = PROGMEM) ∧
    ((List.range 64).map (fun i => goldenDevice.data i % 256) ≠ PROGMEM →
      ((self_test goldenDevice 1).getD ([], 1)).2 = fail_ret) :=
  self_test_golden_iff goldenDevice 1 _ _ rfl

end MFRC522
